import Mathlib

/-!
Verification of the IRIS bytecode virtual machine (a Rust repository)
against its natural-language specification.
The definitions below are a shallow embedding of the execution engine in
src/vm/engine.rs together with the supporting data model of
src/vm/value.rs, src/vm/function.rs and src/vm/object.rs. Machine
integers are embedded as Int with explicit two-complement wrapping where
the source wraps; Rust panics (out-of-bounds indexing, arithmetic
overflow aborts) are a distinguished `panic` outcome; fallible handlers
return an `ExecResult`. Reference-counted class handles are embedded as
indices into an explicit class heap, so that index equality models Rc
pointer equality, which is how the source compares classes.
Definitions come first, fixtures included; the supporting lemmas and the
claim theorems follow.
-/

namespace Iris

/-- FunctionKind of function.rs. -/
inductive FunctionKind where
  | Bytecode
  | Native
deriving Repr, DecidableEq

/-- Model of an IEEE-754 floating point datum by classification: NaN,
signed infinity, or a signed finite magnitude (magnitude 0 is a signed
zero). The finite magnitudes are carried as exact rationals; rounding of
finite quotients to representable values is not modelled, which is
irrelevant here because the claims about float division concern only the
zero-divisor column of the IEEE table, where results are exact. -/
inductive Fp where
  | nan
  | inf (neg : Bool)
  | fin (neg : Bool) (mag : ℚ)
deriving Repr, DecidableEq

/-- IEEE-754 division on the classification model, as performed by the
Rust primitive division on f32/f64 operands. The zero-divisor column
(the subject of the claims) follows IEEE-754 exactly: 0/0 and NaN
operands give NaN, finite-nonzero/0 and inf/0 give a signed infinity.
The finite/finite quotient is taken exactly instead of rounded. -/
def Fp.div : Fp → Fp → Fp
  | .nan, _ => .nan
  | _, .nan => .nan
  | .inf _, .inf _ => .nan
  | .inf s1, .fin s2 _ => .inf (xor s1 s2)
  | .fin s1 _, .inf s2 => .fin (xor s1 s2) 0
  | .fin s1 m1, .fin s2 m2 =>
      if m2 = 0 then (if m1 = 0 then .nan else .inf (xor s1 s2))
      else .fin (xor s1 s2) (m1 / m2)

/-- A float datum is a (signed) zero. -/
def Fp.isZero : Fp → Bool
  | .fin _ m => m = 0
  | _ => false

/-- A float datum is an infinity. -/
def Fp.isInf : Fp → Bool
  | .inf _ => true
  | _ => false

/-- A float datum is a NaN. -/
def Fp.isNaN : Fp → Bool
  | .nan => true
  | _ => false

mutual
/-- Embedding of the Value enum of value.rs. Signed integer payloads are
Int and unsigned payloads Nat (the mathematical value stored, always in
range for states reachable from the source). Class handles are indices
into the class heap of the VM state. An Object carries its class handle
and field vector inline; none of the claims treated here depends on
instance aliasing, so the Rc cell around Instance is modelled by value.
A NativeFunction payload is an opaque code address. -/
inductive Value where
  | Null
  | Bool (b : Bool)
  | I8 (n : Int)
  | I16 (n : Int)
  | I32 (n : Int)
  | I64 (n : Int)
  | I128 (n : Int)
  | U8 (n : Nat)
  | U16 (n : Nat)
  | U32 (n : Nat)
  | U64 (n : Nat)
  | U128 (n : Nat)
  | F32 (x : Fp)
  | F64 (x : Fp)
  | Str (s : String)
  | Object (classRef : Nat) (fields : List Value)
  | Function (f : Func)
  | NativeFunction (addr : Nat)
  | Class (ref : Nat)
  | Array (elems : List Value)
  | Map (entries : List (String × Value))

/-- Embedding of the Function struct of function.rs: name, kind, arity,
optional bytecode (a sequence of octets, each < 256), constants, and an
optional native entry modelled as an opaque code address. The vm_ptr
back-pointer of the source is not observable by any handler embedded
here and is omitted. -/
inductive Func where
  | mk (name : String) (kind : FunctionKind) (arity : Nat)
       (bytecode : Option (List Nat)) (constants : List Value)
       (native : Option Nat)
end

/-- Name component of a Func. -/
def Func.name : Func → String
  | .mk n _ _ _ _ _ => n

/-- Kind component of a Func. -/
def Func.kind : Func → FunctionKind
  | .mk _ k _ _ _ _ => k

/-- Arity component of a Func. -/
def Func.arity : Func → Nat
  | .mk _ _ a _ _ _ => a

/-- Bytecode component of a Func. -/
def Func.bytecode : Func → Option (List Nat)
  | .mk _ _ _ b _ _ => b

/-- Constants component of a Func (the constants accessor of the
source). -/
def Func.constants : Func → List Value
  | .mk _ _ _ _ c _ => c

/-- Embedding of the error enum VMError of engine.rs. UnhandledException
carries the thrown value, as in the source. -/
inductive VMError where
  | StackUnderflow
  | TypeMismatch (msg : String)
  | UndefinedVariable (name : String)
  | UndefinedProperty (slot : Nat)
  | MethodNotFound (slot : Nat)
  | NonCallableValue
  | NonObjectValue
  | NonClassValue
  | NonStringKey
  | IndexOutOfBounds
  | DivisionByZero
  | UnknownOpCode
  | InvalidOperand (msg : String)
  | UnhandledException (v : Value)
  | NoActiveCallFrame
  | NoTryFrame

/-- Outcome of executing a handler: normal return, a VMError surfaced to
the embedder, or a Rust panic (process abort). -/
inductive ExecResult (α : Type) where
  | ok (a : α)
  | err (e : VMError)
  | panic (msg : String)

/-- True exactly on the `ok` outcome. -/
def ExecResult.isOk {α : Type} : ExecResult α → Bool
  | .ok _ => true
  | _ => false

/-- Embedding of the Class struct of object.rs, as one cell of the class
heap. The superclass is an index into the same heap (None at the root).
The method table and property table are carried for completeness. -/
structure ClassObj where
  name : String
  typeId : Nat
  superclass : Option Nat
  methods : List Func
  properties : List (String × Nat)

/-- Embedding of the CallFrame struct of engine.rs: executing function,
instruction pointer (byte offset), and the operand-stack index at which
the frame window begins. -/
structure Frame where
  function : Func
  ip : Nat
  stackBase : Nat

/-- Embedding of the TryFrame struct of engine.rs: handler instruction
pointer and operand-stack height captured at BeginTryBlock. A TryFrame
records no call-frame identity. -/
structure TryFrame where
  ip : Nat
  stackSize : Nat

/-- Embedding of the IrisVM struct of engine.rs: operand stack, frame
stack, globals vector and protected-region stack. Each Vec is a List
with index 0 the bottom; pushes and pops act on the tail end, exactly as
Vec push and pop do. The extra `classes` component is not a field of the
source struct: it is the explicit embedding of the Rc heap of classes
that the source keeps implicit in process memory, with list indices
standing for Rc pointers. -/
structure VMState where
  stack : List Value
  frames : List Frame
  globals : List Value
  tryFrames : List TryFrame
  classes : List ClassObj

/-- Pop the last element of a list (Vec pop of the source): the popped
value and the remaining prefix, or none on an empty list. -/
def listPop {α : Type} : List α → Option (α × List α)
  | [] => none
  | [a] => some (a, [])
  | a :: b :: rest =>
      match listPop (b :: rest) with
      | some (v, r) => some (v, a :: r)
      | none => none

/-- Apply a function to the last element of a list (the current_frame_mut
access pattern of the source), or none on an empty list. -/
def modifyLast {α : Type} (f : α → α) : List α → Option (List α)
  | [] => none
  | [a] => some [f a]
  | a :: b :: rest =>
      match modifyLast f (b :: rest) with
      | some r => some (a :: r)
      | none => none

/-- Embedding of peek_stack of engine.rs: read the value `distance`
entries below the top without removing it. The default of getD is never
used because the index is in range when it is reached. -/
def peekValue (st : VMState) (distance : Nat) : ExecResult Value :=
  if st.stack.length > distance then
    .ok (st.stack.getD (st.stack.length - 1 - distance) Value.Null)
  else .err .StackUnderflow

/-- Embedding of handle_throw_exception of engine.rs: pop the exception
value; with no TryFrame, fail with UnhandledException carrying it;
otherwise pop the topmost TryFrame, set the current frame instruction
pointer to the recorded handler, truncate the operand stack to the
recorded height and push the exception back. -/
def handleThrowException (st : VMState) : ExecResult VMState :=
  match listPop st.stack with
  | none => .err .StackUnderflow
  | some (exc, stack1) =>
    match listPop st.tryFrames with
    | some (tf, tfs) =>
      match modifyLast (fun f => { f with ip := tf.ip }) st.frames with
      | none => .err .NoActiveCallFrame
      | some frames1 =>
        .ok { st with frames := frames1, tryFrames := tfs,
                      stack := stack1.take tf.stackSize ++ [exc] }
    | none => .err (.UnhandledException exc)

/-- Embedding of read_byte of engine.rs: fetch the octet at the current
frame instruction pointer from the frame function bytecode and advance
the instruction pointer by one. The inner NoActiveCallFrame arm after
modifyLast is unreachable (the frame list was just seen non-empty). -/
def readByte (st : VMState) : ExecResult (Nat × VMState) :=
  match st.frames.getLast? with
  | none => .err .NoActiveCallFrame
  | some fr =>
    match fr.function.bytecode with
    | none => .err (.InvalidOperand "Bytecode not found")
    | some code =>
      if fr.ip < code.length then
        match modifyLast (fun f => { f with ip := f.ip + 1 }) st.frames with
        | some frames1 => .ok (code.getD fr.ip 0, { st with frames := frames1 })
        | none => .err .NoActiveCallFrame
      else .err (.InvalidOperand "Instruction pointer out of bounds")

/-- Embedding of read_u16 of engine.rs: two read_byte fetches assembled
big-endian. -/
def readU16 (st : VMState) : ExecResult (Nat × VMState) :=
  match readByte st with
  | .err e => .err e
  | .panic m => .panic m
  | .ok (b1, st1) =>
    match readByte st1 with
    | .err e => .err e
    | .panic m => .panic m
    | .ok (b2, st2) => .ok (b1 * 256 + b2, st2)

/-- Value of an octet reinterpreted as a Rust i8 (the `as i8` cast of
read_i8 in engine.rs). -/
def i8OfByte (b : Nat) : Int :=
  if b < 128 then (b : Int) else (b : Int) - 256

/-- Value of a signed machine integer reinterpreted as a Rust usize on a
64-bit target (the `as usize` cast in engine.rs, which wraps modulo
2^64 and never fails). -/
def usizeOfInt (x : Int) : Nat :=
  (x % (2 ^ 64 : Int)).toNat

/-- Two-complement wrap into the i32 range, the semantics of the
wrapping arithmetic used by the source for 32-bit add, subtract and
multiply. -/
def wrap32 (x : Int) : Int :=
  (x + 2 ^ 31) % 2 ^ 32 - 2 ^ 31

/-- Two-complement wrap into the i64 range. -/
def wrap64 (x : Int) : Int :=
  (x + 2 ^ 63) % 2 ^ 64 - 2 ^ 63

/-- Embedding of handle_get_local_variable of engine.rs: index the
operand stack at stack_base + slot with a plain Vec index (a Rust panic
when out of range) and push a clone of the value. -/
def handleGetLocalVariable (st : VMState) (slot : Nat) : ExecResult VMState :=
  match st.frames.getLast? with
  | none => .err .NoActiveCallFrame
  | some fr =>
    match st.stack.get? (fr.stackBase + slot) with
    | some v => .ok { st with stack := st.stack ++ [v] }
    | none => .panic "index out of bounds"

/-- Embedding of handle_set_local_variable of engine.rs: peek the top of
the operand stack (StackUnderflow when empty), then store the peeked
value at stack_base + slot with a plain Vec index (a Rust panic when out
of range). The peeked value stays on top. -/
def handleSetLocalVariable (st : VMState) (slot : Nat) : ExecResult VMState :=
  match peekValue st 0 with
  | .err e => .err e
  | .panic m => .panic m
  | .ok v =>
    match st.frames.getLast? with
    | none => .err .NoActiveCallFrame
    | some fr =>
      if fr.stackBase + slot < st.stack.length then
        .ok { st with stack := st.stack.set (fr.stackBase + slot) v }
      else .panic "index out of bounds"

/-- Embedding of handle_short_jump of engine.rs: read one octet as an
i8 offset, then set the current frame instruction pointer to ip plus
the offset, where ip has already been advanced past the opcode octet
and past the offset octet. The isize-to-usize cast of the source wraps
modulo 2^64. -/
def handleShortJump (st : VMState) : ExecResult VMState :=
  match readByte st with
  | .err e => .err e
  | .panic m => .panic m
  | .ok (b, st1) =>
    match modifyLast
        (fun fr => { fr with ip := usizeOfInt ((fr.ip : Int) + i8OfByte b) })
        st1.frames with
    | some frames1 => .ok { st1 with frames := frames1 }
    | none => .err .NoActiveCallFrame

/-- Embedding of handle_add_int32 of engine.rs: pop two I32 operands and
push their wrapping sum. -/
def handleAddInt32 (st : VMState) : ExecResult VMState :=
  match listPop st.stack with
  | none => .err .StackUnderflow
  | some (b, s1) =>
    match listPop s1 with
    | none => .err .StackUnderflow
    | some (a, s2) =>
      match a, b with
      | .I32 av, .I32 bv => .ok { st with stack := s2 ++ [.I32 (wrap32 (av + bv))] }
      | _, _ => .err (.TypeMismatch "Operands for AddInt32 must be I32")

/-- Embedding of handle_subtract_int32 of engine.rs. -/
def handleSubtractInt32 (st : VMState) : ExecResult VMState :=
  match listPop st.stack with
  | none => .err .StackUnderflow
  | some (b, s1) =>
    match listPop s1 with
    | none => .err .StackUnderflow
    | some (a, s2) =>
      match a, b with
      | .I32 av, .I32 bv => .ok { st with stack := s2 ++ [.I32 (wrap32 (av - bv))] }
      | _, _ => .err (.TypeMismatch "Operands for SubtractInt32 must be I32")

/-- Embedding of handle_multiply_int32 of engine.rs. -/
def handleMultiplyInt32 (st : VMState) : ExecResult VMState :=
  match listPop st.stack with
  | none => .err .StackUnderflow
  | some (b, s1) =>
    match listPop s1 with
    | none => .err .StackUnderflow
    | some (a, s2) =>
      match a, b with
      | .I32 av, .I32 bv => .ok { st with stack := s2 ++ [.I32 (wrap32 (av * bv))] }
      | _, _ => .err (.TypeMismatch "Operands for MultiplyInt32 must be I32")

/-- Embedding of handle_divide_int32 of engine.rs. The source divides
with the primitive operator after checking only for a zero divisor;
Rust primitive division panics on the single overflowing input pair
(i32 minimum, -1) in every build profile, and otherwise truncates
toward zero (Int.tdiv). -/
def handleDivideInt32 (st : VMState) : ExecResult VMState :=
  match listPop st.stack with
  | none => .err .StackUnderflow
  | some (b, s1) =>
    match listPop s1 with
    | none => .err .StackUnderflow
    | some (a, s2) =>
      match a, b with
      | .I32 av, .I32 bv =>
        if bv = 0 then .err .DivisionByZero
        else if av = -(2 ^ 31) ∧ bv = -1 then .panic "attempt to divide with overflow"
        else .ok { st with stack := s2 ++ [.I32 (Int.tdiv av bv)] }
      | _, _ => .err (.TypeMismatch "Operands for DivideInt32 must be I32")

/-- Embedding of handle_modulo_int32 of engine.rs. As with division,
 the primitive remainder panics on (i32 minimum, -1) in every build
profile, and otherwise truncates (Int.tmod). -/
def handleModuloInt32 (st : VMState) : ExecResult VMState :=
  match listPop st.stack with
  | none => .err .StackUnderflow
  | some (b, s1) =>
    match listPop s1 with
    | none => .err .StackUnderflow
    | some (a, s2) =>
      match a, b with
      | .I32 av, .I32 bv =>
        if bv = 0 then .err .DivisionByZero
        else if av = -(2 ^ 31) ∧ bv = -1 then
          .panic "attempt to calculate the remainder with overflow"
        else .ok { st with stack := s2 ++ [.I32 (Int.tmod av bv)] }
      | _, _ => .err (.TypeMismatch "Operands for ModuloInt32 must be I32")

/-- Embedding of handle_negate_int32 of engine.rs. The source negates
with the primitive operator; the embedding fixes the release-profile
overflow semantics, under which negation wraps (a debug build would
instead abort at the i32 minimum). -/
def handleNegateInt32 (st : VMState) : ExecResult VMState :=
  match listPop st.stack with
  | none => .err .StackUnderflow
  | some (v, s1) =>
    match v with
    | .I32 x => .ok { st with stack := s1 ++ [.I32 (wrap32 (-x))] }
    | _ => .err (.TypeMismatch "Operand for NegateInt32 must be I32")

/-- Embedding of handle_add_int64 of engine.rs. -/
def handleAddInt64 (st : VMState) : ExecResult VMState :=
  match listPop st.stack with
  | none => .err .StackUnderflow
  | some (b, s1) =>
    match listPop s1 with
    | none => .err .StackUnderflow
    | some (a, s2) =>
      match a, b with
      | .I64 av, .I64 bv => .ok { st with stack := s2 ++ [.I64 (wrap64 (av + bv))] }
      | _, _ => .err (.TypeMismatch "Operands for AddInt64 must be I64")

/-- Embedding of handle_subtract_int64 of engine.rs. -/
def handleSubtractInt64 (st : VMState) : ExecResult VMState :=
  match listPop st.stack with
  | none => .err .StackUnderflow
  | some (b, s1) =>
    match listPop s1 with
    | none => .err .StackUnderflow
    | some (a, s2) =>
      match a, b with
      | .I64 av, .I64 bv => .ok { st with stack := s2 ++ [.I64 (wrap64 (av - bv))] }
      | _, _ => .err (.TypeMismatch "Operands for SubtractInt64 must be I64")

/-- Embedding of handle_multiply_int64 of engine.rs. -/
def handleMultiplyInt64 (st : VMState) : ExecResult VMState :=
  match listPop st.stack with
  | none => .err .StackUnderflow
  | some (b, s1) =>
    match listPop s1 with
    | none => .err .StackUnderflow
    | some (a, s2) =>
      match a, b with
      | .I64 av, .I64 bv => .ok { st with stack := s2 ++ [.I64 (wrap64 (av * bv))] }
      | _, _ => .err (.TypeMismatch "Operands for MultiplyInt64 must be I64")

/-- Embedding of handle_divide_float32 of engine.rs: pop two F32
operands and push their IEEE-754 quotient. There is no divisor check of
any kind in the source. -/
def handleDivideFloat32 (st : VMState) : ExecResult VMState :=
  match listPop st.stack with
  | none => .err .StackUnderflow
  | some (b, s1) =>
    match listPop s1 with
    | none => .err .StackUnderflow
    | some (a, s2) =>
      match a, b with
      | .F32 av, .F32 bv => .ok { st with stack := s2 ++ [.F32 (Fp.div av bv)] }
      | _, _ => .err (.TypeMismatch "Operands for DivideFloat32 must be F32")

/-- The argument-relocation loop of handle_tail_call_function of
engine.rs: for i in 0..count, stack[base + i] := stack[src + i],
performed sequentially with plain Vec indexing (a Rust panic when an
index is out of range). -/
def moveArgs : List Value → Nat → Nat → Nat → ExecResult (List Value)
  | s, _, _, 0 => .ok s
  | s, base, src, Nat.succ k =>
    match s.get? src with
    | none => .panic "index out of bounds"
    | some v =>
      if base < s.length then moveArgs (s.set base v) (base + 1) (src + 1) k
      else .panic "index out of bounds"

/-- Embedding of handle_tail_call_function of engine.rs: read the u8
argument count, locate the callee at stack[len - 1 - n] (the usize
arithmetic and indexing panic when fewer than n + 1 entries are
present), reject Native callees, move the n arguments down to the
current frame stack_base, truncate the stack to stack_base + n and
replace the current frame function and instruction pointer in place.
The NoActiveCallFrame arms after a successful readByte are unreachable.
The getD default is never used because calleePos is in range when it is
read. -/
def handleTailCallFunction (st : VMState) : ExecResult VMState :=
  match readByte st with
  | .err e => .err e
  | .panic m => .panic m
  | .ok (argCount, st1) =>
    if argCount + 1 ≤ st1.stack.length then
      let calleePos := st1.stack.length - 1 - argCount
      match st1.stack.getD calleePos Value.Null with
      | .Function f =>
        match f.kind with
        | .Native => .err (.InvalidOperand "Cannot tail call a native function.")
        | .Bytecode =>
          match st1.frames.getLast? with
          | none => .err .NoActiveCallFrame
          | some fr =>
            match moveArgs st1.stack fr.stackBase (calleePos + 1) argCount with
            | .panic m => .panic m
            | .err e => .err e
            | .ok moved =>
              match modifyLast (fun fr0 => { fr0 with function := f, ip := 0 })
                  st1.frames with
              | some frames1 =>
                .ok { st1 with stack := moved.take (fr.stackBase + argCount),
                               frames := frames1 }
              | none => .err .NoActiveCallFrame
      | _ => .err .NonCallableValue
    else .panic "index out of bounds"

/-- Embedding of is_instance_of of engine.rs, fuel-indexed: starting at
the class of the instance, walk the superclass chain comparing each
handle with the target by pointer identity (index equality in the
embedding). The fuel only serves to make the walk structural; superclass
chains built by the source are acyclic (an Rc graph without cycles), so
a fuel of one more than the heap size never runs out, and a dangling
index cannot occur in states reachable from the source. -/
def isInstanceOfAux (classes : List ClassObj) : Nat → Nat → Nat → Bool
  | 0, _, _ => false
  | Nat.succ fuel, cur, target =>
    if cur = target then true
    else
      match classes.get? cur with
      | some c =>
        match c.superclass with
        | some p => isInstanceOfAux classes fuel p target
        | none => false
      | none => false

/-- Embedding of is_instance_of of engine.rs at adequate fuel. -/
def isInstanceOf (classes : List ClassObj) (instClass target : Nat) : Bool :=
  isInstanceOfAux classes (classes.length + 1) instClass target

/-- Embedding of handle_catch_exception of engine.rs: read the u16
class-constant index, fetch that constant from the current function
pool, peek the exception on top of the stack; when the constant is a
Class and the exception an Object whose class is the catch class or a
descendant, the instruction completes with no further effect and the
exception stays on top; in every other case the handler re-enters
handle_throw_exception. -/
def handleCatchException (st : VMState) : ExecResult VMState :=
  match readU16 st with
  | .err e => .err e
  | .panic m => .panic m
  | .ok (classIndex, st1) =>
    match st1.frames.getLast? with
    | none => .err .NoActiveCallFrame
    | some fr =>
      match fr.function.constants.get? classIndex with
      | none => .err (.InvalidOperand "Catch class constant not found")
      | some catchClassVal =>
        match peekValue st1 0 with
        | .err e => .err e
        | .panic m => .panic m
        | .ok excObj =>
          match catchClassVal, excObj with
          | .Class catchRef, .Object instClassRef _fields =>
            if isInstanceOf st1.classes instClassRef catchRef then .ok st1
            else handleThrowException st1
          | _, _ => handleThrowException st1

/-- Embedding of Instance set_field of object.rs. The source calls
Vec insert, which shifts every element at or after the key one slot to
the right, appends when the key equals the length, and panics when the
key is past the length. It does not overwrite the slot in place. -/
def setField (fields : List Value) (key : Nat) (v : Value) : ExecResult (List Value) :=
  if key ≤ fields.length then .ok (fields.take key ++ v :: fields.drop key)
  else .panic "insertion index out of bounds"

/-- A bytecode function fixture with the given code and constants. -/
def mkFunc (code : List Nat) (consts : List Value) : Func :=
  .mk "f" .Bytecode 0 (some code) consts none

/-- A frame fixture executing `mkFunc code consts` from the given ip with
the given stack base. -/
def mkFrame (code : List Nat) (consts : List Value) (ip base : Nat) : Frame :=
  { function := mkFunc code consts, ip := ip, stackBase := base }

/-- Throw fixture: one value on the stack, one TryFrame recording handler
ip 5 and height 0, one frame. -/
def exThrowSt : VMState :=
  { stack := [Value.I32 7], frames := [mkFrame [60] [] 1 0], globals := [],
    tryFrames := [⟨5, 0⟩], classes := [] }

/-- Throw fixture without any TryFrame. -/
def exThrowSt0 : VMState :=
  { stack := [Value.I32 7], frames := [mkFrame [60] [] 1 0], globals := [],
    tryFrames := [], classes := [] }

/-- Root class fixture. -/
def exClassRoot : ClassObj :=
  { name := "E", typeId := 0, superclass := none, methods := [], properties := [] }

/-- Subclass fixture whose superclass is the root (heap index 0). -/
def exClassChild : ClassObj :=
  { name := "D", typeId := 1, superclass := some 0, methods := [], properties := [] }

/-- Catch fixture function: a CatchException octet followed by the u16
constant index 0; constant 0 names the root class. -/
def exCatchFn : Func := mkFunc [61, 0, 0] [Value.Class 0]

/-- Catch fixture frame, ip already past the opcode octet. -/
def exCatchFr : Frame := { function := exCatchFn, ip := 1, stackBase := 0 }

/-- Catch fixture state: a subclass instance on top as the exception. -/
def exCatchSt : VMState :=
  { stack := [Value.Object 1 []], frames := [exCatchFr], globals := [],
    tryFrames := [], classes := [exClassRoot, exClassChild] }

/-- Tail-call fixture callee. -/
def exTailCallee : Func := mkFunc [0] []

/-- Tail-call fixture caller function: opcode octet then the u8 argument
count 1. -/
def exTailFn : Func := mkFunc [33, 1] []

/-- Tail-call fixture frame, ip already past the opcode octet. -/
def exTailFr : Frame := { function := exTailFn, ip := 1, stackBase := 0 }

/-- Tail-call fixture state: the callee below one argument. -/
def exTailSt : VMState :=
  { stack := [Value.Function exTailCallee, Value.I32 5], frames := [exTailFr],
    globals := [], tryFrames := [], classes := [] }

/-- Divide fixture state holding the i32 minimum and -1. -/
def exDivMinSt : VMState :=
  { stack := [Value.I32 (-(2 ^ 31)), Value.I32 (-1)], frames := [], globals := [],
    tryFrames := [], classes := [] }

/-- Add fixture state holding the i32 maximum and 1. -/
def exAddMaxSt : VMState :=
  { stack := [Value.I32 2147483647, Value.I32 1], frames := [], globals := [],
    tryFrames := [], classes := [] }

/-- Float-divide fixture state: 1.0 over +0.0. -/
def exFloatDivSt : VMState :=
  { stack := [Value.F32 (Fp.fin false 1), Value.F32 (Fp.fin false 0)], frames := [],
    globals := [], tryFrames := [], classes := [] }

/-- Integer-divide fixture state: 6 over 0. -/
def exIntDivZeroSt : VMState :=
  { stack := [Value.I32 6, Value.I32 0], frames := [], globals := [],
    tryFrames := [], classes := [] }

/-- Short-jump fixture function: opcode octet then the i8 offset 3. -/
def exJumpFn : Func := mkFunc [44, 3] []

/-- Short-jump fixture frame, ip already past the opcode octet at 0. -/
def exJumpFr : Frame := { function := exJumpFn, ip := 1, stackBase := 0 }

/-- Short-jump fixture state. -/
def exJumpSt : VMState :=
  { stack := [], frames := [exJumpFr], globals := [], tryFrames := [], classes := [] }

/-- Local-variable fixture frame with stack base 0. -/
def exLocalFr : Frame := { function := mkFunc [0] [], ip := 0, stackBase := 0 }

/-- Local-variable fixture state with a one-entry stack. -/
def exSetLocalSt : VMState :=
  { stack := [Value.I32 1], frames := [exLocalFr], globals := [],
    tryFrames := [], classes := [] }

/-- Local-variable fixture state with an empty stack. -/
def exEmptyLocalSt : VMState :=
  { stack := [], frames := [exLocalFr], globals := [], tryFrames := [], classes := [] }

theorem listPop_concat {α : Type} (l : List α) (v : α) :
    listPop (l ++ [v]) = some (v, l) := by
  induction l with
  | nil => rfl
  | cons a l ih =>
    cases hl : l ++ [v] with
    | nil => simp at hl
    | cons c cs =>
      simp only [List.cons_append, hl, listPop]
      rw [← hl, ih]

theorem modifyLast_concat {α : Type} (f : α → α) (l : List α) (v : α) :
    modifyLast f (l ++ [v]) = some (l ++ [f v]) := by
  induction l with
  | nil => rfl
  | cons a l ih =>
    cases hl : l ++ [v] with
    | nil => simp at hl
    | cons c cs =>
      simp only [List.cons_append, hl, modifyLast]
      rw [← hl, ih]

/-- Unwinding lemma shared by the exception claims: a throw on a state
with an exception on top, at least one TryFrame and at least one
CallFrame pops the TryFrame, truncates to its recorded height, pushes
the exception back and redirects the current frame to the recorded
handler. -/
theorem handleThrowException_ok (st : VMState) (v : Value) (rest : List Value)
    (tfs : List TryFrame) (tf : TryFrame) (fs : List Frame) (fr : Frame)
    (hstack : st.stack = rest ++ [v])
    (htf : st.tryFrames = tfs ++ [tf])
    (hfr : st.frames = fs ++ [fr]) :
    handleThrowException st =
      .ok { st with stack := rest.take tf.stackSize ++ [v],
                    tryFrames := tfs,
                    frames := fs ++ [{ fr with ip := tf.ip }] } := by
  unfold handleThrowException
  simp only [hstack, htf, hfr, listPop_concat, modifyLast_concat]

theorem readByte_ok (st : VMState) (fs : List Frame) (fr : Frame)
    (code : List Nat) (b : Nat)
    (hfr : st.frames = fs ++ [fr])
    (hcode : fr.function.bytecode = some code)
    (hb : code.get? fr.ip = some b) :
    readByte st = .ok (b, { st with frames := fs ++ [{ fr with ip := fr.ip + 1 }] }) := by
  have hlt : fr.ip < code.length := List.get?_eq_some.mp hb |>.1
  have hb' : code[fr.ip]? = some b := by
    simpa [List.get?_eq_getElem?] using hb
  have hgetD : code.getD fr.ip 0 = b := by
    simp [List.getD, hb']
  unfold readByte
  rw [hfr, List.getLast?_concat]
  simp only [hcode, hlt, if_pos, modifyLast_concat, hgetD]

/-- Two consecutive byte fetches, as performed by read_u16. -/
theorem readU16_ok (st : VMState) (fs : List Frame) (fr : Frame)
    (code : List Nat) (b1 b2 : Nat)
    (hfr : st.frames = fs ++ [fr])
    (hcode : fr.function.bytecode = some code)
    (hb1 : code.get? fr.ip = some b1)
    (hb2 : code.get? (fr.ip + 1) = some b2) :
    readU16 st = .ok (b1 * 256 + b2,
      { st with frames := fs ++ [{ fr with ip := fr.ip + 2 }] }) := by
  have h1 := readByte_ok st fs fr code b1 hfr hcode hb1
  have h2 := readByte_ok { st with frames := fs ++ [{ fr with ip := fr.ip + 1 }] }
    fs { fr with ip := fr.ip + 1 } code b2 rfl hcode hb2
  unfold readU16
  rw [h1]
  simp only [h2]

/-- Reading the top of a non-empty operand stack. -/
theorem peekValue_concat (st : VMState) (rest : List Value) (v : Value)
    (hstack : st.stack = rest ++ [v]) : peekValue st 0 = .ok v := by
  unfold peekValue
  rw [hstack]
  have hlen : (rest ++ [v]).length = rest.length + 1 := by simp
  have hget : (rest ++ [v])[rest.length]? = some v := List.getElem?_concat_length rest v
  simp [hlen, List.getD, hget]

/-- C1: executing ThrowException pops the exception value from the
operand stack; with an empty TryFrame stack it terminates with the
fatal error UnhandledException carrying that value; otherwise the
topmost TryFrame is popped, the operand stack is truncated to the
height captured at BeginTryBlock, the exception value is pushed back,
the active frame instruction pointer is set to the captured handler ip,
and execution resumes. -/
theorem throw_unwinds_or_unhandled (st : VMState) (v : Value) (rest : List Value)
    (hstack : st.stack = rest ++ [v]) :
    (st.tryFrames = [] → handleThrowException st = .err (.UnhandledException v)) ∧
    (∀ (tfs : List TryFrame) (tf : TryFrame) (fs : List Frame) (fr : Frame),
      st.tryFrames = tfs ++ [tf] → st.frames = fs ++ [fr] →
      handleThrowException st =
        .ok { st with stack := rest.take tf.stackSize ++ [v],
                      tryFrames := tfs,
                      frames := fs ++ [{ fr with ip := tf.ip }] }) := by
  constructor
  · intro htf
    unfold handleThrowException
    simp only [hstack, listPop_concat, htf, listPop]
  · intro tfs tf fs fr htf hfr
    exact handleThrowException_ok st v rest tfs tf fs fr hstack htf hfr

/-- Witness for C1: both branches at a concrete state. -/
theorem throw_unwinds_or_unhandled_witness :
    handleThrowException exThrowSt0 = .err (.UnhandledException (Value.I32 7)) ∧
    handleThrowException exThrowSt =
      .ok { exThrowSt with stack := [Value.I32 7], tryFrames := [],
                           frames := [{ mkFrame [60] [] 1 0 with ip := 5 }] } := by
  constructor
  · exact (throw_unwinds_or_unhandled exThrowSt0 (Value.I32 7) [] rfl).1 rfl
  · have h := (throw_unwinds_or_unhandled exThrowSt (Value.I32 7) [] rfl).2
      [] ⟨5, 0⟩ [] (mkFrame [60] [] 1 0) rfl rfl
    simpa using h

/-- C9: exception unwinding never pops CallFrames. A TryFrame records
only a handler ip and a captured stack height, not which call frame
created it, so a ThrowException executed with a non-empty TryFrame
stack leaves the frame stack length unchanged and installs the recorded
handler ip into whichever frame is current at throw time; nothing ties
the popped TryFrame tf to the current frame fr, which covers the case
of a TryFrame pushed while a caller was executing. -/
theorem throw_preserves_call_frames (st : VMState) (v : Value) (rest : List Value)
    (tfs : List TryFrame) (tf : TryFrame) (fs : List Frame) (fr : Frame)
    (hstack : st.stack = rest ++ [v])
    (htf : st.tryFrames = tfs ++ [tf])
    (hfr : st.frames = fs ++ [fr]) :
    handleThrowException st =
      .ok { st with stack := rest.take tf.stackSize ++ [v],
                    tryFrames := tfs,
                    frames := fs ++ [{ fr with ip := tf.ip }] } ∧
    (fs ++ [{ fr with ip := tf.ip }]).length = st.frames.length := by
  refine ⟨handleThrowException_ok st v rest tfs tf fs fr hstack htf hfr, ?_⟩
  simp [hfr]

/-- Witness for C9 at a concrete state. -/
theorem throw_preserves_call_frames_witness :
    handleThrowException exThrowSt =
      .ok { exThrowSt with stack := List.take 0 [] ++ [Value.I32 7], tryFrames := [],
                           frames := [] ++ [{ mkFrame [60] [] 1 0 with ip := 5 }] } ∧
    ([] ++ [{ mkFrame [60] [] 1 0 with ip := 5 }]).length = exThrowSt.frames.length :=
  throw_preserves_call_frames exThrowSt (Value.I32 7) [] [] ⟨5, 0⟩ []
    (mkFrame [60] [] 1 0) rfl rfl rfl

/-- C2: for a CatchException instruction whose u16 class-constant
operand names a Class, if the value on top of the operand stack is an
Object whose class equals that class or is a descendant of it, the
instruction completes with no effect beyond advancing the instruction
pointer past its operand, leaving the exception value on top for the
handler; otherwise — a non-matching Object, or any non-Object top —
the handler re-enters the Throw path on the post-fetch state, which
unwinds to the next enclosing TryFrame or terminates with
UnhandledException. -/
theorem catch_matches_or_rethrows
    (st st1 : VMState) (fs : List Frame) (fr : Frame) (code : List Nat)
    (b1 b2 cRef : Nat) (rest : List Value) (top : Value)
    (hfr : st.frames = fs ++ [fr])
    (hcode : fr.function.bytecode = some code)
    (hb1 : code.get? fr.ip = some b1)
    (hb2 : code.get? (fr.ip + 1) = some b2)
    (hconst : fr.function.constants.get? (b1 * 256 + b2) = some (Value.Class cRef))
    (hstack : st.stack = rest ++ [top])
    (hst1 : st1 = { st with frames := fs ++ [{ fr with ip := fr.ip + 2 }] }) :
    (∀ icls flds, top = Value.Object icls flds →
       (isInstanceOf st.classes icls cRef = true →
          handleCatchException st = .ok st1) ∧
       (isInstanceOf st.classes icls cRef = false →
          handleCatchException st = handleThrowException st1)) ∧
    ((∀ icls flds, top ≠ Value.Object icls flds) →
       handleCatchException st = handleThrowException st1) := by
  have hread := readU16_ok st fs fr code b1 b2 hfr hcode hb1 hb2
  have hpeek : peekValue { st with frames := fs ++ [{ fr with ip := fr.ip + 2 }] } 0
      = .ok top := peekValue_concat _ rest top hstack
  subst hst1
  constructor
  · intro icls flds htop
    subst htop
    constructor
    · intro hi
      unfold handleCatchException
      rw [hread]
      simp only [List.getLast?_concat, hconst, hpeek]
      simp [hi]
    · intro hi
      unfold handleCatchException
      rw [hread]
      simp only [List.getLast?_concat, hconst, hpeek]
      simp [hi]
  · intro hne
    unfold handleCatchException
    rw [hread]
    simp only [List.getLast?_concat, hconst, hpeek]
    cases top with
    | Object icls flds => exact absurd rfl (hne icls flds)
    | _ => rfl

/-- Witness for C2: a descendant-class exception is accepted in place
and stays on top. -/
theorem catch_matches_or_rethrows_witness :
    handleCatchException exCatchSt =
      .ok { exCatchSt with frames := [{ exCatchFr with ip := 3 }] } := by
  have h := (catch_matches_or_rethrows exCatchSt
      { exCatchSt with frames := [{ exCatchFr with ip := 3 }] }
      [] exCatchFr [61, 0, 0] 0 0 0 [] (Value.Object 1 [])
      rfl rfl rfl rfl rfl rfl rfl).1 1 [] rfl
  exact h.1 rfl

/-- Relocation lemma: when the write window starts at or before the read
window and the reads stay in range, the sequential copy loop succeeds,
preserves the length, and its first base + k entries are the untouched
prefix below base followed by the k values read from src upward (each
source entry is only ever overwritten after it has been read). -/
theorem moveArgs_ok (k : Nat) : ∀ (s : List Value) (base src : Nat),
    base ≤ src → src + k ≤ s.length →
    ∃ r, moveArgs s base src k = .ok r ∧ r.length = s.length ∧
      r.take (base + k) = s.take base ++ (s.drop src).take k := by
  induction k with
  | zero =>
    intro s base src _ _
    exact ⟨s, rfl, rfl, by simp⟩
  | succ k ih =>
    intro s base src hbs hlen
    have hsrc : src < s.length := by omega
    have hbase : base < s.length := by omega
    have hv : s.get? src = some (s.get ⟨src, hsrc⟩) := List.get?_eq_get hsrc
    obtain ⟨r, hr, hrl, hrt⟩ :=
      ih (s.set base (s.get ⟨src, hsrc⟩)) (base + 1) (src + 1)
        (by omega) (by simp; omega)
    refine ⟨r, ?_, by rw [hrl, List.length_set], ?_⟩
    · unfold moveArgs
      rw [hv]
      simp only [hbase, if_pos, hr]
    · have hs' : (s.set base (s.get ⟨src, hsrc⟩)).take (base + 1)
          = s.take base ++ [s.get ⟨src, hsrc⟩] := by
        rw [List.set_eq_take_cons_drop _ hbase]
        rw [List.take_append_eq_append_take]
        have h1 : (s.take base).length = base := by simp; omega
        rw [h1]
        simp
      have hd' : (s.set base (s.get ⟨src, hsrc⟩)).drop (src + 1) = s.drop (src + 1) :=
        List.drop_set_of_lt _ _ (by omega)
      have hcons : s.drop src = s.get ⟨src, hsrc⟩ :: s.drop (src + 1) := by
        simp only [List.get_eq_getElem]
        exact List.drop_eq_getElem_cons hsrc
      have harr : base + (k + 1) = (base + 1) + k := by omega
      rw [harr, hrt, hs', hd', hcons, List.take_succ_cons, List.append_assoc,
        List.singleton_append]

/-- C3: for TailCallFunction with argument count n, when the callee at
stack[len - 1 - n] is a Bytecode function, no new CallFrame is pushed —
the frame stack keeps its length — the n arguments are moved down to the
current frame stack_base, the operand stack is truncated to
stack_base + n, and the current frame function and instruction pointer
are replaced in place by the callee and 0; a Native-kind callee fails
with an InvalidOperand error. -/
theorem tailCall_reuses_frame
    (st : VMState) (fs : List Frame) (fr : Frame) (code : List Nat)
    (n : Nat) (f : Func)
    (hfr : st.frames = fs ++ [fr])
    (hcode : fr.function.bytecode = some code)
    (hb : code.get? fr.ip = some n)
    (hlen : n + 1 ≤ st.stack.length)
    (hbase : fr.stackBase + n + 1 ≤ st.stack.length)
    (hcallee : st.stack.get? (st.stack.length - 1 - n) = some (Value.Function f)) :
    (f.kind = FunctionKind.Bytecode →
      handleTailCallFunction st =
        .ok { st with
          stack := st.stack.take fr.stackBase ++ st.stack.drop (st.stack.length - n),
          frames := fs ++ [{ fr with function := f, ip := 0 }] } ∧
      (fs ++ [{ fr with function := f, ip := 0 }]).length = st.frames.length) ∧
    (f.kind = FunctionKind.Native →
      handleTailCallFunction st = .err (.InvalidOperand "Cannot tail call a native function.")) := by
  have hread := readByte_ok st fs fr code n hfr hcode hb
  have hstlen : ({ st with frames := fs ++ [{ fr with ip := fr.ip + 1 }] } : VMState).stack.length
      = st.stack.length := rfl
  have hcallee' : st.stack[st.stack.length - 1 - n]? = some (Value.Function f) := by
    rw [← List.get?_eq_getElem?]
    exact hcallee
  have hget : st.stack.getD (st.stack.length - 1 - n) Value.Null = Value.Function f := by
    simp [List.getD, hcallee']
  constructor
  · intro hkind
    obtain ⟨r, hr, hrl, hrt⟩ := moveArgs_ok n st.stack fr.stackBase
      (st.stack.length - 1 - n + 1) (by omega) (by omega)
    have hdropEq : st.stack.length - 1 - n + 1 = st.stack.length - n := by omega
    constructor
    · unfold handleTailCallFunction
      rw [hread]
      simp only [hstlen, hlen, if_pos, hget, hkind, List.getLast?_concat,
        modifyLast_concat]
      rw [hr]
      have htake : r.take (fr.stackBase + n)
          = st.stack.take fr.stackBase ++ st.stack.drop (st.stack.length - n) := by
        rw [hrt, hdropEq]
        have : (st.stack.drop (st.stack.length - n)).take n
            = st.stack.drop (st.stack.length - n) := by
          apply List.take_of_length_le
          simp only [List.length_drop]
          omega
        rw [this]
      simp only [htake]
    · simp [hfr]
  · intro hkind
    unfold handleTailCallFunction
    rw [hread]
    simp only [hstlen, hlen, if_pos, hget, hkind]

/-- Witness for C3 at a concrete state: one argument moved down to the
base, frame reused. -/
theorem tailCall_reuses_frame_witness :
    handleTailCallFunction exTailSt =
      .ok { exTailSt with
        stack := [Value.I32 5],
        frames := [{ exTailFr with function := exTailCallee, ip := 0 }] } ∧
    ([{ exTailFr with function := exTailCallee, ip := 0 }] : List Frame).length
      = exTailSt.frames.length := by
  have h := (tailCall_reuses_frame exTailSt [] exTailFr [33, 1] 1 exTailCallee
      rfl rfl rfl (by decide) (by decide) rfl).1 rfl
  exact ⟨h.1, h.2⟩

/-- Popping twice from a stack ending in two known values. -/
theorem listPop_concat2 {α : Type} (l : List α) (a b : α) :
    listPop (l ++ [a, b]) = some (b, l ++ [a]) := by
  have h : l ++ [a, b] = (l ++ [a]) ++ [b] := by simp
  rw [h, listPop_concat]

/-- C4 (amended): AddInt32, SubtractInt32 and MultiplyInt32 (and the
I64 forms) compute the wrapped result, congruent to the exact result
modulo 2^32 (resp. 2^64); DivideInt32 applied to the i32 minimum and -1
does not wrap — the primitive division overflows and the process
aborts. -/
theorem int32_arith_wraps_divide_overflow_panics :
    (∀ (st : VMState) (rest : List Value) (a b : Int),
       st.stack = rest ++ [Value.I32 a, Value.I32 b] →
       (handleAddInt32 st = .ok { st with stack := rest ++ [Value.I32 (wrap32 (a + b))] } ∧
          wrap32 (a + b) % 2 ^ 32 = (a + b) % 2 ^ 32) ∧
       (handleSubtractInt32 st = .ok { st with stack := rest ++ [Value.I32 (wrap32 (a - b))] } ∧
          wrap32 (a - b) % 2 ^ 32 = (a - b) % 2 ^ 32) ∧
       (handleMultiplyInt32 st = .ok { st with stack := rest ++ [Value.I32 (wrap32 (a * b))] } ∧
          wrap32 (a * b) % 2 ^ 32 = (a * b) % 2 ^ 32)) ∧
    (∀ (st : VMState) (rest : List Value) (a b : Int),
       st.stack = rest ++ [Value.I64 a, Value.I64 b] →
       (handleAddInt64 st = .ok { st with stack := rest ++ [Value.I64 (wrap64 (a + b))] } ∧
          wrap64 (a + b) % 2 ^ 64 = (a + b) % 2 ^ 64) ∧
       (handleSubtractInt64 st = .ok { st with stack := rest ++ [Value.I64 (wrap64 (a - b))] } ∧
          wrap64 (a - b) % 2 ^ 64 = (a - b) % 2 ^ 64) ∧
       (handleMultiplyInt64 st = .ok { st with stack := rest ++ [Value.I64 (wrap64 (a * b))] } ∧
          wrap64 (a * b) % 2 ^ 64 = (a * b) % 2 ^ 64)) ∧
    (∀ (st : VMState) (rest : List Value),
       st.stack = rest ++ [Value.I32 (-(2 ^ 31)), Value.I32 (-1)] →
       handleDivideInt32 st = .panic "attempt to divide with overflow") := by
  refine ⟨?_, ?_, ?_⟩
  · intro st rest a b hstack
    refine ⟨⟨?_, ?_⟩, ⟨?_, ?_⟩, ⟨?_, ?_⟩⟩
    · unfold handleAddInt32
      simp only [hstack, listPop_concat2, listPop_concat]
    · unfold wrap32; omega
    · unfold handleSubtractInt32
      simp only [hstack, listPop_concat2, listPop_concat]
    · unfold wrap32; omega
    · unfold handleMultiplyInt32
      simp only [hstack, listPop_concat2, listPop_concat]
    · unfold wrap32; omega
  · intro st rest a b hstack
    refine ⟨⟨?_, ?_⟩, ⟨?_, ?_⟩, ⟨?_, ?_⟩⟩
    · unfold handleAddInt64
      simp only [hstack, listPop_concat2, listPop_concat]
    · unfold wrap64; omega
    · unfold handleSubtractInt64
      simp only [hstack, listPop_concat2, listPop_concat]
    · unfold wrap64; omega
    · unfold handleMultiplyInt64
      simp only [hstack, listPop_concat2, listPop_concat]
    · unfold wrap64; omega
  · intro st rest hstack
    unfold handleDivideInt32
    simp only [hstack, listPop_concat2, listPop_concat]
    norm_num

/-- Counterexample for C4 as stated: DivideInt32 applied to the i32
minimum and -1 does not yield the wrapped quotient (which would be the
i32 minimum pushed back with a success outcome); the primitive division
overflows and the interpreter aborts, so the outcome is not a success
at all. -/
theorem divideInt32_min_neg1_not_wrapped :
    handleDivideInt32 exDivMinSt = .panic "attempt to divide with overflow" ∧
    (handleDivideInt32 exDivMinSt).isOk = false := by
  constructor
  · unfold handleDivideInt32 exDivMinSt
    norm_num [listPop]
  · unfold handleDivideInt32 exDivMinSt
    norm_num [listPop, ExecResult.isOk]

/-- Witness for C4 (amended) at concrete operands. -/
theorem int32_arith_wraps_divide_overflow_panics_witness :
    handleAddInt32 exAddMaxSt =
      .ok { exAddMaxSt with stack := [Value.I32 (wrap32 (2147483647 + 1))] } ∧
    handleDivideInt32 exDivMinSt = .panic "attempt to divide with overflow" := by
  constructor
  · exact ((int32_arith_wraps_divide_overflow_panics.1
      exAddMaxSt [] 2147483647 1 rfl).1).1
  · exact int32_arith_wraps_divide_overflow_panics.2.2 exDivMinSt [] rfl

/-- C7: on two I32 operands, DivideInt32 and ModuloInt32 surface the
DivisionByZero error exactly when the divisor is zero; on two F32
operands DivideFloat32 never fails — it pushes the IEEE-754 quotient
and succeeds, and when the divisor is a zero that quotient is an
infinity or a NaN. -/
theorem divide_by_zero_exact :
    (∀ (st : VMState) (rest : List Value) (a b : Int),
       st.stack = rest ++ [Value.I32 a, Value.I32 b] →
       ((handleDivideInt32 st = .err .DivisionByZero) ↔ b = 0)) ∧
    (∀ (st : VMState) (rest : List Value) (a b : Int),
       st.stack = rest ++ [Value.I32 a, Value.I32 b] →
       ((handleModuloInt32 st = .err .DivisionByZero) ↔ b = 0)) ∧
    (∀ (st : VMState) (rest : List Value) (x y : Fp),
       st.stack = rest ++ [Value.F32 x, Value.F32 y] →
       handleDivideFloat32 st = .ok { st with stack := rest ++ [Value.F32 (Fp.div x y)] } ∧
       (y.isZero = true → (Fp.div x y).isInf = true ∨ (Fp.div x y).isNaN = true)) := by
  refine ⟨?_, ?_, ?_⟩
  · intro st rest a b hstack
    unfold handleDivideInt32
    simp only [hstack, listPop_concat2, listPop_concat]
    by_cases hb : b = 0
    · simp [hb]
    · rw [if_neg hb]
      constructor
      · intro h
        exfalso
        by_cases hmin : a = -(2 ^ 31) ∧ b = -1
        · rw [if_pos hmin] at h
          exact ExecResult.noConfusion h
        · rw [if_neg hmin] at h
          exact ExecResult.noConfusion h
      · intro h
        exact absurd h hb
  · intro st rest a b hstack
    unfold handleModuloInt32
    simp only [hstack, listPop_concat2, listPop_concat]
    by_cases hb : b = 0
    · simp [hb]
    · rw [if_neg hb]
      constructor
      · intro h
        exfalso
        by_cases hmin : a = -(2 ^ 31) ∧ b = -1
        · rw [if_pos hmin] at h
          exact ExecResult.noConfusion h
        · rw [if_neg hmin] at h
          exact ExecResult.noConfusion h
      · intro h
        exact absurd h hb
  · intro st rest x y hstack
    constructor
    · unfold handleDivideFloat32
      simp only [hstack, listPop_concat2, listPop_concat]
    · intro hz
      cases y with
      | nan => simp [Fp.isZero] at hz
      | inf s => simp [Fp.isZero] at hz
      | fin s m =>
        have hm : m = 0 := by simpa [Fp.isZero] using hz
        subst hm
        cases x with
        | nan => simp [Fp.div, Fp.isNaN]
        | inf s1 => simp [Fp.div, Fp.isInf]
        | fin s1 m1 =>
          by_cases hm1 : m1 = 0
          · simp [Fp.div, hm1, Fp.isNaN]
          · simp [Fp.div, hm1, Fp.isInf]

/-- Witness for C7: a zero divisor surfaces DivisionByZero on I32 and
produces a successful infinity on F32. -/
theorem divide_by_zero_exact_witness :
    handleDivideInt32 exIntDivZeroSt = .err .DivisionByZero ∧
    handleDivideFloat32 exFloatDivSt =
      .ok { exFloatDivSt with
            stack := [Value.F32 (Fp.div (Fp.fin false 1) (Fp.fin false 0))] } ∧
    (Fp.div (Fp.fin false 1) (Fp.fin false 0)).isInf = true := by
  refine ⟨?_, ?_, ?_⟩
  · exact (divide_by_zero_exact.1 exIntDivZeroSt [] 6 0 rfl).mpr rfl
  · exact (divide_by_zero_exact.2.2 exFloatDivSt [] (Fp.fin false 1) (Fp.fin false 0) rfl).1
  · have h := (divide_by_zero_exact.2.2 exFloatDivSt [] (Fp.fin false 1)
      (Fp.fin false 0) rfl).2 (by simp [Fp.isZero])
    rcases h with h | h
    · exact h
    · exact absurd h (by simp [Fp.div, Fp.isNaN])

/-- C5 (amended): the ShortJump immediate is an i8 signed offset
measured from the end of the two-octet instruction, not from the opcode
octet: with the opcode at position p and offset d, the current frame
instruction pointer becomes p + 2 + d (under the wrapping
isize-to-usize cast of the source). The frame enters the handler with
ip = p + 1, the dispatch loop having consumed the opcode octet. -/
theorem shortJump_offset_from_instruction_end
    (st : VMState) (fs : List Frame) (fr : Frame) (code : List Nat) (p b : Nat)
    (hfr : st.frames = fs ++ [fr])
    (hcode : fr.function.bytecode = some code)
    (hip : fr.ip = p + 1)
    (hb : code.get? (p + 1) = some b) :
    handleShortJump st =
      .ok { st with frames :=
        fs ++ [{ fr with ip := usizeOfInt ((p : Int) + 2 + i8OfByte b) }] } := by
  have hb' : code.get? fr.ip = some b := by rw [hip]; exact hb
  have hread := readByte_ok st fs fr code b hfr hcode hb'
  unfold handleShortJump
  rw [hread]
  simp only [modifyLast_concat]
  have harith : ((fr.ip + 1 : Nat) : Int) + i8OfByte b = (p : Int) + 2 + i8OfByte b := by
    rw [hip]; push_cast; ring
  rw [harith]

/-- Counterexample for C5 as stated: a ShortJump whose opcode octet sits
at position 0 with offset 3 sets the instruction pointer to 5, not to
0 + 3 as the claim reads. -/
theorem shortJump_not_measured_from_opcode :
    handleShortJump exJumpSt = .ok { exJumpSt with frames := [{ exJumpFr with ip := 5 }] } ∧
    (5 : Nat) ≠ 0 + 3 := by
  constructor
  · have h := shortJump_offset_from_instruction_end exJumpSt [] exJumpFr [44, 3] 0 3
      rfl rfl rfl rfl
    simpa using h
  · decide

/-- Witness for C5 (amended) at the concrete fixture. -/
theorem shortJump_offset_from_instruction_end_witness :
    handleShortJump exJumpSt =
      .ok { exJumpSt with frames :=
        [{ exJumpFr with ip := usizeOfInt ((0 : Int) + 2 + i8OfByte 3) }] } := by
  have h := shortJump_offset_from_instruction_end exJumpSt [] exJumpFr [44, 3] 0 3
    rfl rfl rfl rfl
  exact h

/-- C6 (evaluation of the defect): Instance set_field is implemented
with Vec insert. An in-range write does not replace the slot — it
shifts the tail and silently grows the field vector by one; a write at
exactly the length silently appends; and a write past the length is a
Rust panic that aborts the process instead of a fatal error surfaced to
the embedder. The spec requires in-range writes to replace in place and
out-of-range writes to be a surfaced fatal error. -/
theorem setField_inserts_shifts_appends_or_aborts :
    setField [Value.Null, Value.Bool true] 0 (Value.I32 7)
      = .ok [Value.I32 7, Value.Null, Value.Bool true] ∧
    setField [Value.Null] 1 (Value.I32 7) = .ok [Value.Null, Value.I32 7] ∧
    setField [Value.Null, Value.Bool true] 3 (Value.I32 7)
      = .panic "insertion index out of bounds" :=
  ⟨rfl, rfl, rfl⟩

/-- C8 (amended): SetLocalVariable stores by peek. On a non-empty
operand stack whose target index stack_base + slot is within the stack,
it writes a copy of the top value into that slot and leaves the stack
otherwise unchanged: the height is unchanged, the stored value remains
on top, the target slot holds the stored value, and no other entry is
modified. When stack_base + slot is at or past the stack length the
instruction instead aborts with an out-of-bounds panic (see the
companion counterexample), so the in-range condition cannot be
dropped. -/
theorem setLocal_store_by_peek
    (st : VMState) (slot : Nat) (fs : List Frame) (fr : Frame)
    (v : Value) (rest : List Value)
    (hfr : st.frames = fs ++ [fr])
    (hstack : st.stack = rest ++ [v])
    (hidx : fr.stackBase + slot < st.stack.length) :
    handleSetLocalVariable st slot =
      .ok { st with stack := st.stack.set (fr.stackBase + slot) v } ∧
    (st.stack.set (fr.stackBase + slot) v).length = st.stack.length ∧
    (st.stack.set (fr.stackBase + slot) v).getLast? = some v ∧
    (st.stack.set (fr.stackBase + slot) v)[fr.stackBase + slot]? = some v ∧
    (∀ i, i ≠ fr.stackBase + slot →
      (st.stack.set (fr.stackBase + slot) v)[i]? = st.stack[i]?) := by
  have hpeek := peekValue_concat st rest v hstack
  refine ⟨?_, by simp, ?_, ?_, ?_⟩
  · unfold handleSetLocalVariable
    rw [hpeek]
    simp only [hfr, List.getLast?_concat, hidx, if_pos]
  · have hlast : st.stack[st.stack.length - 1]? = some v := by
      rw [hstack]
      have : (rest ++ [v]).length - 1 = rest.length := by simp
      rw [this]
      exact List.getElem?_concat_length rest v
    rw [List.getLast?_eq_getElem?]
    simp only [List.length_set]
    by_cases hi : fr.stackBase + slot = st.stack.length - 1
    · rw [← hi]
      exact List.getElem?_set_self (by omega)
    · rw [List.getElem?_set_ne hi]
      exact hlast
  · exact List.getElem?_set_self hidx
  · intro i hi
    exact List.getElem?_set_ne (fun h => hi h.symm)

/-- Counterexample for C8 as stated: on the non-empty stack [I32 1] with
stack base 0, SetLocalVariable at slot 1 does not perform the claimed
store — the unchecked Vec index aborts the interpreter. -/
theorem setLocal_out_of_range_aborts :
    handleSetLocalVariable exSetLocalSt 1 = .panic "index out of bounds" ∧
    (handleSetLocalVariable exSetLocalSt 1).isOk = false :=
  ⟨rfl, rfl⟩

/-- Witness for C8 (amended) at slot 0 of a one-entry stack. -/
theorem setLocal_store_by_peek_witness :
    handleSetLocalVariable exSetLocalSt 0 =
      .ok { exSetLocalSt with stack := [Value.I32 1].set 0 (Value.I32 1) } ∧
    ([Value.I32 1].set 0 (Value.I32 1)).getLast? = some (Value.I32 1) := by
  have h := setLocal_store_by_peek exSetLocalSt 0 [] exLocalFr (Value.I32 1) []
    rfl rfl (by decide)
  exact ⟨h.1, h.2.2.1⟩

/-- C10 (amended): neither GetLocalVariable nor SetLocalVariable bounds
checks the computed index stack_base + slot. GetLocalVariable panics
(out-of-bounds Vec index) whenever the index is at or past the operand
stack length; SetLocalVariable does the same on every non-empty stack;
but on an empty operand stack SetLocalVariable returns StackUnderflow
from its store-by-peek read before any indexing, so the claimed panic
does not cover that corner. -/
theorem locals_unchecked_index_panics :
    (∀ (st : VMState) (slot : Nat) (fs : List Frame) (fr : Frame),
       st.frames = fs ++ [fr] → st.stack.length ≤ fr.stackBase + slot →
       handleGetLocalVariable st slot = .panic "index out of bounds") ∧
    (∀ (st : VMState) (slot : Nat) (fs : List Frame) (fr : Frame),
       st.frames = fs ++ [fr] → st.stack ≠ [] →
       st.stack.length ≤ fr.stackBase + slot →
       handleSetLocalVariable st slot = .panic "index out of bounds") ∧
    (∀ (st : VMState) (slot : Nat), st.stack = [] →
       handleSetLocalVariable st slot = .err .StackUnderflow) := by
  refine ⟨?_, ?_, ?_⟩
  · intro st slot fs fr hfr hle
    unfold handleGetLocalVariable
    rw [hfr, List.getLast?_concat]
    have hnone : st.stack.get? (fr.stackBase + slot) = none :=
      List.get?_eq_none.mpr hle
    simp only [hnone]
  · intro st slot fs fr hfr hne hle
    rcases (List.eq_nil_or_concat st.stack).resolve_left hne with ⟨rest, v, hstack⟩
    rw [List.concat_eq_append] at hstack
    have hpeek := peekValue_concat st rest v hstack
    unfold handleSetLocalVariable
    rw [hpeek]
    simp only [hfr, List.getLast?_concat]
    rw [if_neg (by omega)]
  · intro st slot hstack
    unfold handleSetLocalVariable peekValue
    rw [hstack]
    simp

/-- Counterexample for C10 as stated: SetLocalVariable on an empty
operand stack (where any stack_base + slot is at or past the length)
returns the StackUnderflow error rather than panicking. -/
theorem setLocal_empty_stack_underflows :
    handleSetLocalVariable exEmptyLocalSt 0 = .err .StackUnderflow ∧
    (handleSetLocalVariable exEmptyLocalSt 0).isOk = false :=
  ⟨rfl, rfl⟩

/-- Witness for C10 (amended): the three branches at concrete states. -/
theorem locals_unchecked_index_panics_witness :
    handleGetLocalVariable exEmptyLocalSt 0 = .panic "index out of bounds" ∧
    handleSetLocalVariable exSetLocalSt 5 = .panic "index out of bounds" ∧
    handleSetLocalVariable exEmptyLocalSt 3 = .err .StackUnderflow := by
  refine ⟨?_, ?_, ?_⟩
  · exact locals_unchecked_index_panics.1 exEmptyLocalSt 0 [] exLocalFr rfl (by decide)
  · exact locals_unchecked_index_panics.2.1 exSetLocalSt 5 [] exLocalFr rfl
      (by simp [exSetLocalSt]) (by decide)
  · exact locals_unchecked_index_panics.2.2 exEmptyLocalSt 3 rfl

end Iris
